import Mathlib

/-!
# Verification of the YOLO Vision renderer (src/renderer.js)

A shallow embedding of the rendering/compositing pipeline of the first
`Renderer` class in `src/renderer.js` (the variant whose line numbers the
specification refers to): settings and presets, hex color parsing, temporal
mask smoothing (`smoothMask`), spatial blur (`blurMask`), the per-pixel
compositor of `drawSegmentation`, and the edge detector of `drawOutline`.

Conventions of the embedding:
* JavaScript numbers are modelled as exact rationals (`ℚ`); integer-valued
  quantities as `ℕ`/`ℤ`.  All the concrete values appearing in the claims
  (0.5, smoothing/10, etc.) are exact in both float64 and `ℚ`.
* `Uint8Array` masks are `List ℕ`, `Float32Array` history buffers are
  `List ℚ`, RGBA pixel buffers are `List RGBA`.
* Stores into an `ImageData` buffer (a `Uint8ClampedArray`) are modelled by
  `toUint8Clamp`, the ECMAScript ToUint8Clamp conversion: clamp to
  `[0, 255]`, then round, ties to even.
* The mutable `this.settings` / `this.prevMask` state is passed explicitly;
  `updateSettings` / `applyPreset` / `smoothMask` return the new state.
-/

/-- The `this.settings` record of the `Renderer` constructor. -/
structure Settings where
  vizMode : String
  colorMode : String
  fillColor : String
  outlineColor : String
  bgColor : String
  fillOpacity : ℚ
  outlineThickness : ℚ
  showLabels : Bool
  segmentationMode : Bool
  bgReplace : Bool
  smoothing : ℤ
deriving DecidableEq

/-- The default settings assigned in the `Renderer` constructor. -/
def defaultSettings : Settings :=
  { vizMode := "both"
    colorMode := "fixed"
    fillColor := "#ffffff"
    outlineColor := "#ffffff"
    bgColor := "#000000"
    fillOpacity := 1/2
    outlineThickness := 3
    showLabels := true
    segmentationMode := true
    bgReplace := false
    smoothing := 2 }

/-- A partial settings record, as passed to `updateSettings`: `none` means
the key is absent from the update object. -/
structure SettingsUpdate where
  vizMode : Option String := none
  colorMode : Option String := none
  fillColor : Option String := none
  outlineColor : Option String := none
  bgColor : Option String := none
  fillOpacity : Option ℚ := none
  outlineThickness : Option ℚ := none
  showLabels : Option Bool := none
  segmentationMode : Option Bool := none
  bgReplace : Option Bool := none
  smoothing : Option ℤ := none

/-- `updateSettings(newSettings)`: `Object.assign(this.settings, newSettings)`
overwrites exactly the keys present in the update, with no validation or
clamping of any value. -/
def updateSettings (s : Settings) (u : SettingsUpdate) : Settings :=
  { vizMode := u.vizMode.getD s.vizMode
    colorMode := u.colorMode.getD s.colorMode
    fillColor := u.fillColor.getD s.fillColor
    outlineColor := u.outlineColor.getD s.outlineColor
    bgColor := u.bgColor.getD s.bgColor
    fillOpacity := u.fillOpacity.getD s.fillOpacity
    outlineThickness := u.outlineThickness.getD s.outlineThickness
    showLabels := u.showLabels.getD s.showLabels
    segmentationMode := u.segmentationMode.getD s.segmentationMode
    bgReplace := u.bgReplace.getD s.bgReplace
    smoothing := u.smoothing.getD s.smoothing }

/-- One entry of `this.presets`: every preset in the table lists exactly the
fields `fillColor`, `outlineColor`, `fillOpacity`, `outlineThickness`,
`vizMode`. -/
structure Preset where
  fillColor : String
  outlineColor : String
  fillOpacity : ℚ
  outlineThickness : ℚ
  vizMode : String
deriving DecidableEq

/-- The result of the JavaScript property lookup `this.presets[key]`: an
own entry of the preset table; a truthy value inherited from
`Object.prototype` through the prototype chain (a built-in function or
object, identified here by its property name, with no own enumerable
properties); or `undefined`, which is falsy. -/
inductive PresetLookup where
  | preset : Preset → PresetLookup
  | inherited : String → PresetLookup
  | undefined : PresetLookup
deriving DecidableEq

/-- The property names a plain object literal inherits from
`Object.prototype`; looking any of them up on the preset table yields a
truthy inherited value, not `undefined`. -/
def objectProtoKeys : List String :=
  ["constructor", "hasOwnProperty", "isPrototypeOf", "propertyIsEnumerable",
   "toLocaleString", "toString", "valueOf", "__defineGetter__",
   "__defineSetter__", "__lookupGetter__", "__lookupSetter__", "__proto__"]

/-- The lookup `this.presets[key]`: the seven own entries of the table,
then the prototype chain (`Object.prototype`), then `undefined`. -/
def presets (key : String) : PresetLookup :=
  if key = "E" then
    .preset { fillColor := "#00ff00", outlineColor := "#39ff14", fillOpacity := 2/5,
              outlineThickness := 4, vizMode := "both" }
  else if key = "R" then
    .preset { fillColor := "#ff0000", outlineColor := "#ff0000", fillOpacity := 3/10,
              outlineThickness := 5, vizMode := "outline" }
  else if key = "T" then
    .preset { fillColor := "#00ff00", outlineColor := "#00aa00", fillOpacity := 3/5,
              outlineThickness := 2, vizMode := "both" }
  else if key = "Z" then
    .preset { fillColor := "#ff00ff", outlineColor := "#00ffff", fillOpacity := 1/2,
              outlineThickness := 3, vizMode := "both" }
  else if key = "U" then
    .preset { fillColor := "#ffffff", outlineColor := "#ffffff", fillOpacity := 1/5,
              outlineThickness := 2, vizMode := "outline" }
  else if key = "I" then
    .preset { fillColor := "#000000", outlineColor := "#ffffff", fillOpacity := 4/5,
              outlineThickness := 2, vizMode := "both" }
  else if key = "O" then
    .preset { fillColor := "#ffa500", outlineColor := "#ff4500", fillOpacity := 1/2,
              outlineThickness := 4, vizMode := "both" }
  else if key ∈ objectProtoKeys then .inherited key
  else .undefined

/-- `applyPreset(key)`: `if (this.presets[key])` tests the lookup for
truthiness, so it passes both for an own preset entry and for a value
inherited from `Object.prototype`.  On an own entry, `Object.assign`
merges the preset's five fields into the live settings and the preset is
returned; on an inherited value, `Object.assign` copies nothing (built-ins
have no own enumerable properties) and the inherited value is returned;
only on `undefined` does the function return `null`.  The pair is
(returned value, new settings state). -/
def applyPreset (key : String) (s : Settings) : Option PresetLookup × Settings :=
  match presets key with
  | .preset p =>
      (some (.preset p),
       { s with fillColor := p.fillColor, outlineColor := p.outlineColor,
                fillOpacity := p.fillOpacity, outlineThickness := p.outlineThickness,
                vizMode := p.vizMode })
  | .inherited nm => (some (.inherited nm), s)
  | .undefined => (none, s)

/-- The numeric value of one hex digit, as `parseInt(·, 16)` reads it
(`0`-`9`, `a`-`f`, `A`-`F`); other characters contribute nothing to the
claims considered here. -/
def hexDigitVal (c : Char) : ℕ :=
  let n := c.toNat
  if 48 ≤ n ∧ n ≤ 57 then n - 48
  else if 97 ≤ n ∧ n ≤ 102 then n - 87
  else if 65 ≤ n ∧ n ≤ 70 then n - 55
  else 0

/-- `parseInt(s, 16)` on a two-character hex slice. -/
def parseHex2 (cs : List Char) : ℕ :=
  match cs with
  | [a, b] => 16 * hexDigitVal a + hexDigitVal b
  | _ => 0

/-- `hexToRGB(hex)`: parse `hex.slice(1,3)`, `hex.slice(3,5)`,
`hex.slice(5,7)` as the `(r, g, b)` channels. -/
def hexToRGB (hex : String) : ℕ × ℕ × ℕ :=
  let cs := hex.toList
  (parseHex2 ((cs.drop 1).take 2),
   parseHex2 ((cs.drop 3).take 2),
   parseHex2 ((cs.drop 5).take 2))

/-- The ECMAScript ToUint8Clamp conversion performed by every store into a
`Uint8ClampedArray` (the `ImageData` pixel buffer): clamp to `[0, 255]`,
then round to the nearest integer, ties to even. -/
def toUint8Clamp (q : ℚ) : ℕ :=
  if q ≤ 0 then 0
  else if 255 ≤ q then 255
  else if (⌊q⌋.toNat : ℚ) + 1/2 < q then ⌊q⌋.toNat + 1
  else if q < (⌊q⌋.toNat : ℚ) + 1/2 then ⌊q⌋.toNat
  else if ⌊q⌋.toNat % 2 = 1 then ⌊q⌋.toNat + 1 else ⌊q⌋.toNat

/-- The re-binarization `blended > 0.5 ? 1 : 0` used by `smoothMask` and
`blurMask`. -/
def binarize (b : ℚ) : ℕ := if 1/2 < b then 1 else 0

/-- `smoothMask(currentMask, width, height)` (temporal smoothing).  The
previous-frame float buffer `this.prevMask` is passed in and the updated
buffer returned alongside the output mask.  Note the reset test compares
only `prevMask.length` with `currentMask.length`; `width` and `height` are
unused. -/
def smoothMask (smoothing : ℤ) (prevMask : Option (List ℚ)) (currentMask : List ℕ)
    (width height : ℕ) : List ℕ × List ℚ :=
  match prevMask with
  | none => (currentMask, currentMask.map fun v => (v : ℚ))
  | some prev =>
      if smoothing = 0 ∨ prev.length ≠ currentMask.length then
        (currentMask, currentMask.map fun v => (v : ℚ))
      else
        let factor : ℚ := (smoothing : ℚ) / 10
        let blended :=
          List.zipWith (fun (p : ℚ) (c : ℕ) => p * factor + (c : ℚ) * (1 - factor))
            prev currentMask
        (blended.map binarize, blended)

/-- The 3×3 kernel average of `blurMask` at cell `(x, y)`: only in-bounds
neighbours contribute to `sum` and `count`. -/
def blurCell (data : List ℚ) (width height : ℕ) (x y : ℕ) : ℚ :=
  let cells :=
    ([-1, 0, 1] : List ℤ).flatMap fun dy =>
      ([-1, 0, 1] : List ℤ).filterMap fun dx =>
        let nx := (x : ℤ) + dx
        let ny := (y : ℤ) + dy
        if 0 ≤ nx ∧ nx < (width : ℤ) ∧ 0 ≤ ny ∧ ny < (height : ℤ) then
          some (data.getD (ny.toNat * width + nx.toNat) 0)
        else none
  cells.sum / (cells.length : ℚ)

/-- One iteration of the mean filter of `blurMask`, producing `newData`. -/
def blurOnce (data : List ℚ) (width height : ℕ) : List ℚ :=
  (List.range (width * height)).map fun i => blurCell data width height (i % width) (i / width)

/-- `blurMask(maskData, width, height, iterations)` (spatial smoothing):
return the input untouched when `iterations === 0`; otherwise run the mean
filter `iterations` times (a negative count runs the loop zero times) and
re-binarize at threshold 0.5. -/
def blurMask (maskData : List ℕ) (width height : ℕ) (iterations : ℤ) : List ℕ :=
  if iterations = 0 then maskData
  else
    ((fun d => blurOnce d width height)^[iterations.toNat]
        (maskData.map fun v => (v : ℚ))).map binarize

/-- The mask-processing pipeline of `drawSegmentation` (lines 145-146):
temporal smoothing followed by `blurMask` with
`Math.floor(settings.smoothing / 3)` iterations.  Returns the processed
mask together with the new history buffer. -/
def processMask (smoothing : ℤ) (prevMask : Option (List ℚ)) (currentMask : List ℕ)
    (width height : ℕ) : List ℕ × List ℚ :=
  let r := smoothMask smoothing prevMask currentMask width height
  (blurMask r.1 width height (Int.fdiv smoothing 3), r.2)

/-- One RGBA pixel of the output `ImageData` buffer. -/
structure RGBA where
  r : ℕ
  g : ℕ
  b : ℕ
  a : ℕ
deriving DecidableEq

/-- One channel of the fill blend
`vid * (1 - blend) + fill * blend`, as stored into the clamped output
buffer. -/
def blendChannel (vidC fillC : ℕ) (blend : ℚ) : ℕ :=
  toUint8Clamp ((vidC : ℚ) * (1 - blend) + (fillC : ℚ) * blend)

/-- The per-pixel compositor of `drawSegmentation` (lines 185-220): given
the settings, whether the pixel's mask cell is segmented, and the source
video pixel, produce the RGBA value written to the output buffer. -/
def compositePixel (s : Settings) (isSegmented : Bool) (vid : ℕ × ℕ × ℕ) : RGBA :=
  let fillRGB := hexToRGB s.fillColor
  let bgRGB := hexToRGB s.bgColor
  if s.bgReplace then
    if isSegmented then
      if s.vizMode = "fill" ∨ s.vizMode = "both" then
        { r := blendChannel vid.1 fillRGB.1 s.fillOpacity
          g := blendChannel vid.2.1 fillRGB.2.1 s.fillOpacity
          b := blendChannel vid.2.2 fillRGB.2.2 s.fillOpacity
          a := 255 }
      else
        { r := toUint8Clamp (vid.1 : ℚ), g := toUint8Clamp (vid.2.1 : ℚ),
          b := toUint8Clamp (vid.2.2 : ℚ), a := 255 }
    else
      { r := toUint8Clamp (bgRGB.1 : ℚ), g := toUint8Clamp (bgRGB.2.1 : ℚ),
        b := toUint8Clamp (bgRGB.2.2 : ℚ), a := 255 }
  else
    if isSegmented ∧ (s.vizMode = "fill" ∨ s.vizMode = "both") then
      { r := blendChannel vid.1 fillRGB.1 s.fillOpacity
        g := blendChannel vid.2.1 fillRGB.2.1 s.fillOpacity
        b := blendChannel vid.2.2 fillRGB.2.2 s.fillOpacity
        a := 255 }
    else
      { r := toUint8Clamp (vid.1 : ℚ), g := toUint8Clamp (vid.2.1 : ℚ),
        b := toUint8Clamp (vid.2.2 : ℚ), a := 255 }

/-- The full pixel loop of `drawSegmentation` (lines 169-222): the output
buffer created by `createImageData(canvasW, canvasH)`, row-major, every
pixel mapped to its mask cell by floor-based nearest neighbour
(`Math.floor(x / scaleX)`, `scaleX = canvasW / maskW`) and composited. -/
def compositeImage (s : Settings) (maskData : List ℕ) (videoData : List (ℕ × ℕ × ℕ))
    (width height canvasW canvasH : ℕ) : List RGBA :=
  let scaleX : ℚ := (canvasW : ℚ) / (width : ℚ)
  let scaleY : ℚ := (canvasH : ℚ) / (height : ℚ)
  (List.range (canvasW * canvasH)).map fun i =>
    let x := i % canvasW
    let y := i / canvasW
    let maskX := (⌊(x : ℚ) / scaleX⌋).toNat
    let maskY := (⌊(y : ℚ) / scaleY⌋).toNat
    let maskIdx := maskY * width + maskX
    compositePixel s (maskData.getD maskIdx 0 == 1) (videoData.getD maskIdx (0, 0, 0))

/-- The edge test of `drawOutline` (lines 244-256): the cell holds 1 and
some in-bounds cell of the 3×3 neighbourhood (the loop includes the cell
itself) holds 0. -/
def isEdge (maskData : List ℕ) (maskWidth maskHeight : ℕ) (x y : ℕ) : Bool :=
  (maskData.getD (y * maskWidth + x) 0 == 1) &&
  (([-1, 0, 1] : List ℤ).any fun dy =>
    ([-1, 0, 1] : List ℤ).any fun dx =>
      let nx := (x : ℤ) + dx
      let ny := (y : ℤ) + dy
      decide (0 ≤ nx ∧ nx < (maskWidth : ℤ) ∧ 0 ≤ ny ∧ ny < (maskHeight : ℤ)) &&
      (maskData.getD (ny.toNat * maskWidth + nx.toNat) 0 == 0))

/-- The rectangles painted by `drawOutline` (lines 241-268): one
`fillRect(x*scaleX, y*scaleY, max(scaleX,thickness), max(scaleY,thickness))`
per edge cell, in row-major scan order. -/
def drawOutlineRects (maskData : List ℕ) (maskWidth maskHeight canvasW canvasH : ℕ)
    (thickness : ℚ) : List (ℚ × ℚ × ℚ × ℚ) :=
  let scaleX : ℚ := (canvasW : ℚ) / (maskWidth : ℚ)
  let scaleY : ℚ := (canvasH : ℚ) / (maskHeight : ℚ)
  (List.range maskHeight).flatMap fun y =>
    (List.range maskWidth).filterMap fun x =>
      if isEdge maskData maskWidth maskHeight x y then
        some ((x : ℚ) * scaleX, (y : ℚ) * scaleY, max scaleX thickness, max scaleY thickness)
      else none

/-- The history buffer after `n` further frames of `smoothMask` applied to
the constant mask `M`, starting from history `h0`. -/
def histN (smoothing : ℤ) (h0 : List ℚ) (M : List ℕ) : ℕ → List ℚ
  | 0 => h0
  | n + 1 => (smoothMask smoothing (some (histN smoothing h0 M n)) M 0 0).2

/-! ## Helper lemmas about the clamped store -/

lemma toUint8Clamp_le (q : ℚ) : toUint8Clamp q ≤ 255 := by
  unfold toUint8Clamp
  split_ifs with h1 h2 h3 h4 h5 <;> try omega
  all_goals
    have hlt : ⌊q⌋ < 255 := Int.floor_lt.mpr (by exact_mod_cast lt_of_not_le h2)
    omega

lemma toUint8Clamp_natCast (n : ℕ) (h : n ≤ 255) : toUint8Clamp (n : ℚ) = n := by
  have hfl : ⌊(n : ℚ)⌋.toNat = n := by
    rw [Int.floor_natCast]; exact Int.toNat_natCast n
  rcases Nat.lt_or_ge n 255 with h255 | h255
  · rcases Nat.eq_zero_or_pos n with h0 | hpos
    · subst h0; simp [toUint8Clamp]
    · have c1 : ¬ ((n : ℚ) ≤ 0) := by
        rw [not_le]; exact_mod_cast hpos
      have c2 : ¬ ((255 : ℚ) ≤ (n : ℚ)) := by
        rw [not_le]; exact_mod_cast h255
      unfold toUint8Clamp
      rw [if_neg c1, if_neg c2, hfl, if_neg (by norm_num), if_pos (by norm_num)]
  · have hn : n = 255 := le_antisymm h h255
    subst hn
    unfold toUint8Clamp
    rw [if_neg (by norm_num), if_pos (by norm_num)]

lemma le_toUint8Clamp (n : ℕ) (q : ℚ) (hn : n ≤ 255) (h : (n : ℚ) ≤ q) :
    n ≤ toUint8Clamp q := by
  unfold toUint8Clamp
  split_ifs with h1 h2 h3 h4 h5 <;> try omega
  · have : (n : ℚ) ≤ 0 := le_trans h h1
    have : n = 0 := by exact_mod_cast le_antisymm this (by positivity)
    omega
  all_goals
    have hnf : (n : ℤ) ≤ ⌊q⌋ := Int.le_floor.mpr (by exact_mod_cast h)
    omega

lemma floor_355_half : ⌊(355 : ℚ)/2⌋ = 177 := by
  have h1 : ((177 : ℤ) : ℚ) ≤ (355 : ℚ)/2 := by norm_num
  have h2 : (355 : ℚ)/2 < 177 + 1 := by norm_num
  exact Int.floor_eq_iff.mpr ⟨h1, h2⟩

lemma toUint8Clamp_355_half : toUint8Clamp ((355 : ℚ)/2) = 178 := by
  have ht : ⌊(355 : ℚ)/2⌋.toNat = 177 := by rw [floor_355_half]; rfl
  unfold toUint8Clamp
  rw [if_neg (by norm_num), if_neg (by norm_num), ht,
    if_neg (by norm_num), if_neg (by norm_num), if_pos (by norm_num)]

lemma hexToRGB_white : hexToRGB "#ffffff" = (255, 255, 255) := by decide

lemma blendChannel_c1 : blendChannel 100 255 (1/2) = 178 := by
  have h : ((100 : ℕ) : ℚ) * (1 - 1/2) + ((255 : ℕ) : ℚ) * (1/2) = (355 : ℚ)/2 := by
    norm_num
  rw [blendChannel, h, toUint8Clamp_355_half]

lemma compositePixel_c1_eval :
    compositePixel
      { defaultSettings with
          vizMode := "fill", fillColor := "#ffffff",
          fillOpacity := 1/2, bgReplace := false } true (100, 100, 100) =
    { r := 178, g := 178, b := 178, a := 255 } := by
  simp only [compositePixel, defaultSettings, hexToRGB_white]
  norm_num
  have h : (((100 : ℕ) : ℚ) * (1 - 2⁻¹) + ((255 : ℕ) : ℚ) * 2⁻¹) = (355 : ℚ)/2 := by
    norm_num
  simp only [blendChannel]
  norm_num [h, toUint8Clamp_355_half]

/-! ## Claim theorems -/

/-- C1 (counterexample): with fillOpacity 0.5, fillColor `#ffffff`,
source pixel (100,100,100), segmented, background replace off and viz mode
`fill`, the compositor does NOT produce the pixel (177,177,177): the
blended value 177.5 is stored through the clamped output buffer, which
rounds it up to 178, not down to 177. -/
theorem C1_cex :
    compositePixel
      { defaultSettings with
          vizMode := "fill", fillColor := "#ffffff",
          fillOpacity := 1/2, bgReplace := false } true (100, 100, 100) ≠
    { r := 177, g := 177, b := 177, a := 255 } := by
  rw [compositePixel_c1_eval]
  decide

/-- C1 (amended): with fillOpacity 0.5, fillColor `#ffffff`, source pixel
(100,100,100), segmented, background replace off and viz mode `fill`, the
compositor produces the output pixel (178,178,178): each channel is
100*0.5 + 255*0.5 = 177.5, and the `Uint8ClampedArray` store rounds the
tie to the even value 178. -/
theorem C1_blend_example :
    compositePixel
      { defaultSettings with
          vizMode := "fill", fillColor := "#ffffff",
          fillOpacity := 1/2, bgReplace := false } true (100, 100, 100) =
    { r := 178, g := 178, b := 178, a := 255 } :=
  compositePixel_c1_eval

/-- C2: with smoothing = 0 the full mask-processing pipeline (temporal
smoothing, then spatial blur with floor(0/3) = 0 iterations) returns every
mask unchanged, for any history buffer and any dimensions. -/
theorem C2_pass_through (M : List ℕ) (prevMask : Option (List ℚ)) (w h : ℕ) :
    (processMask 0 prevMask M w h).1 = M := by
  have hdiv : Int.fdiv 0 3 = 0 := rfl
  cases prevMask <;> simp [processMask, smoothMask, blurMask, hdiv]

/-- The prior settings of the C9 scenario: vizMode `outline`,
fillOpacity 0.9, defaults elsewhere. -/
def priorSettingsC9 : Settings :=
  { defaultSettings with vizMode := "outline", fillOpacity := 9/10 }

/-- C9: applying preset `E` to settings with prior vizMode `outline` and
fillOpacity 0.9 yields vizMode `both` and fillOpacity 0.4, every field not
listed in the preset keeps its prior value, and in general `applyPreset`
leaves the six unlisted settings fields of any preset untouched. -/
theorem C9_presetE (s : Settings) (h1 : s.vizMode = "outline") (h2 : s.fillOpacity = 9/10) :
    ((applyPreset "E" s).2.vizMode = "both" ∧ (applyPreset "E" s).2.fillOpacity = 2/5) ∧
    ((applyPreset "E" s).2.showLabels = s.showLabels ∧
     (applyPreset "E" s).2.bgReplace = s.bgReplace ∧
     (applyPreset "E" s).2.smoothing = s.smoothing ∧
     (applyPreset "E" s).2.colorMode = s.colorMode ∧
     (applyPreset "E" s).2.bgColor = s.bgColor ∧
     (applyPreset "E" s).2.segmentationMode = s.segmentationMode) ∧
    (∀ key s0, (applyPreset key s0).2.showLabels = s0.showLabels ∧
       (applyPreset key s0).2.bgReplace = s0.bgReplace ∧
       (applyPreset key s0).2.smoothing = s0.smoothing ∧
       (applyPreset key s0).2.colorMode = s0.colorMode ∧
       (applyPreset key s0).2.bgColor = s0.bgColor ∧
       (applyPreset key s0).2.segmentationMode = s0.segmentationMode) := by
  refine ⟨?_, ?_, ?_⟩
  · simp [applyPreset, presets]
  · simp [applyPreset, presets]
  · intro key s0
    cases hk : presets key <;> simp [applyPreset, hk]

/-- C9 witness: the C9 theorem instantiated at the concrete prior
settings. -/
theorem C9_witness :
    ((applyPreset "E" priorSettingsC9).2.vizMode = "both" ∧
     (applyPreset "E" priorSettingsC9).2.fillOpacity = 2/5) ∧
    ((applyPreset "E" priorSettingsC9).2.showLabels = priorSettingsC9.showLabels ∧
     (applyPreset "E" priorSettingsC9).2.bgReplace = priorSettingsC9.bgReplace ∧
     (applyPreset "E" priorSettingsC9).2.smoothing = priorSettingsC9.smoothing ∧
     (applyPreset "E" priorSettingsC9).2.colorMode = priorSettingsC9.colorMode ∧
     (applyPreset "E" priorSettingsC9).2.bgColor = priorSettingsC9.bgColor ∧
     (applyPreset "E" priorSettingsC9).2.segmentationMode = priorSettingsC9.segmentationMode) ∧
    (∀ key s0, (applyPreset key s0).2.showLabels = s0.showLabels ∧
       (applyPreset key s0).2.bgReplace = s0.bgReplace ∧
       (applyPreset key s0).2.smoothing = s0.smoothing ∧
       (applyPreset key s0).2.colorMode = s0.colorMode ∧
       (applyPreset key s0).2.bgColor = s0.bgColor ∧
       (applyPreset key s0).2.segmentationMode = s0.segmentationMode) :=
  C9_presetE priorSettingsC9 rfl rfl

/-- C10 (counterexample): `toString` is not one of the seven preset
identifiers, yet `applyPreset` does not return `null` for it: the property
lookup `this.presets["toString"]` finds the truthy inherited
`Object.prototype.toString` through the prototype chain, and that value is
returned instead of `null`. -/
theorem C10_cex :
    ("toString" ∉ (["E", "R", "T", "Z", "U", "I", "O"] : List String)) ∧
    (applyPreset "toString" defaultSettings).1 ≠ none := by
  constructor
  · decide
  · decide

/-- C10 (amended): on a key that is neither one of the seven preset
identifiers nor an `Object.prototype` property name, `applyPreset` returns
`null` and leaves every settings field unchanged; on a key naming an
inherited `Object.prototype` property the lookup is truthy, so the
inherited value is returned, while `Object.assign` copies none of its
fields and the settings are still unchanged; on a known preset key it
returns exactly the preset's field record (and merges exactly those five
fields). -/
theorem C10_applyPreset (key : String) (s : Settings) :
    (key ∉ (["E", "R", "T", "Z", "U", "I", "O"] : List String) →
      key ∉ objectProtoKeys → applyPreset key s = (none, s)) ∧
    (∀ nm, presets key = .inherited nm →
      applyPreset key s = (some (.inherited nm), s)) ∧
    (∀ p, presets key = .preset p →
      applyPreset key s =
        (some (.preset p),
         { s with fillColor := p.fillColor, outlineColor := p.outlineColor,
                  fillOpacity := p.fillOpacity, outlineThickness := p.outlineThickness,
                  vizMode := p.vizMode })) := by
  refine ⟨?_, ?_, ?_⟩
  · intro hk hproto
    simp only [List.mem_cons, List.not_mem_nil, or_false, not_or] at hk
    obtain ⟨h1, h2, h3, h4, h5, h6, h7⟩ := hk
    simp [applyPreset, presets, h1, h2, h3, h4, h5, h6, h7, hproto]
  · intro nm hnm
    simp [applyPreset, hnm]
  · intro p hp
    simp [applyPreset, hp]

/-- C10 witness: the key `Q` (neither a preset identifier nor inherited)
returns `null` and changes nothing; the inherited key `toString` returns
the inherited value and changes nothing; the known key `E` returns the `E`
preset record. -/
theorem C10_witness :
    applyPreset "Q" defaultSettings = (none, defaultSettings) ∧
    applyPreset "toString" defaultSettings =
      (some (.inherited "toString"), defaultSettings) ∧
    (applyPreset "E" defaultSettings).1 =
      some (.preset { fillColor := "#00ff00", outlineColor := "#39ff14", fillOpacity := 2/5,
                      outlineThickness := 4, vizMode := "both" }) := by
  refine ⟨?_, ?_, ?_⟩
  · exact (C10_applyPreset "Q" defaultSettings).1 (by decide) (by decide)
  · exact (C10_applyPreset "toString" defaultSettings).2.1 "toString" rfl
  · rw [(C10_applyPreset "E" defaultSettings).2.2
      { fillColor := "#00ff00", outlineColor := "#39ff14", fillOpacity := 2/5,
        outlineThickness := 4, vizMode := "both" } rfl]

lemma hexDigitVal_le (c : Char) : hexDigitVal c ≤ 15 := by
  simp only [hexDigitVal]
  split_ifs <;> omega

lemma parseHex2_le (cs : List Char) : parseHex2 cs ≤ 255 := by
  rcases cs with _ | ⟨a, _ | ⟨b, _ | ⟨c, t⟩⟩⟩
  · simp [parseHex2]
  · simp [parseHex2]
  · have ha := hexDigitVal_le a
    have hb := hexDigitVal_le b
    simp only [parseHex2]
    omega
  · simp [parseHex2]

lemma hexToRGB_le (hex : String) :
    (hexToRGB hex).1 ≤ 255 ∧ (hexToRGB hex).2.1 ≤ 255 ∧ (hexToRGB hex).2.2 ≤ 255 :=
  ⟨parseHex2_le _, parseHex2_le _, parseHex2_le _⟩

/-- C3: with background replace ON and viz mode `outline`, the compositor
emits exactly the source pixel for a segmented cell (no fill blend) and
exactly the configured background color for a non-segmented cell. -/
theorem C3_bg_replace_outline (s : Settings) (hbg : s.bgReplace = true)
    (hviz : s.vizMode = "outline") (r g b : ℕ) (hr : r ≤ 255) (hg : g ≤ 255) (hb : b ≤ 255) :
    compositePixel s true (r, g, b) = { r := r, g := g, b := b, a := 255 } ∧
    compositePixel s false (r, g, b) =
      { r := (hexToRGB s.bgColor).1, g := (hexToRGB s.bgColor).2.1,
        b := (hexToRGB s.bgColor).2.2, a := 255 } := by
  have hfill : ¬ (s.vizMode = "fill" ∨ s.vizMode = "both") := by
    rw [hviz]; decide
  constructor
  · simp [compositePixel, hbg, hfill, toUint8Clamp_natCast r hr,
      toUint8Clamp_natCast g hg, toUint8Clamp_natCast b hb]
  · simp [compositePixel, hbg,
      toUint8Clamp_natCast _ (hexToRGB_le s.bgColor).1,
      toUint8Clamp_natCast _ (hexToRGB_le s.bgColor).2.1,
      toUint8Clamp_natCast _ (hexToRGB_le s.bgColor).2.2]

/-- C3 witness: the C3 theorem at background replace ON, viz mode
`outline`, source pixel (10,20,30) and the default background color
`#000000`. -/
theorem C3_witness :
    compositePixel { defaultSettings with bgReplace := true, vizMode := "outline" }
        true (10, 20, 30) = { r := 10, g := 20, b := 30, a := 255 } ∧
    compositePixel { defaultSettings with bgReplace := true, vizMode := "outline" }
        false (10, 20, 30) =
      { r := (hexToRGB "#000000").1, g := (hexToRGB "#000000").2.1,
        b := (hexToRGB "#000000").2.2, a := 255 } :=
  C3_bg_replace_outline
    { defaultSettings with bgReplace := true, vizMode := "outline" }
    rfl rfl 10 20 30 (by norm_num) (by norm_num) (by norm_num)

lemma compositePixel_alpha (s : Settings) (seg : Bool) (v : ℕ × ℕ × ℕ) :
    (compositePixel s seg v).a = 255 := by
  unfold compositePixel
  split_ifs <;> rfl

/-- C4: for every mask, source frame and settings combination, every pixel
of the compositor's output buffer has alpha 255, and the buffer holds
exactly canvasW × canvasH pixels (none is left unwritten). -/
theorem C4_opaque (s : Settings) (maskData : List ℕ) (videoData : List (ℕ × ℕ × ℕ))
    (w h cw ch : ℕ) (p : RGBA)
    (hp : p ∈ compositeImage s maskData videoData w h cw ch) :
    p.a = 255 ∧ (compositeImage s maskData videoData w h cw ch).length = cw * ch := by
  constructor
  · simp only [compositeImage, List.mem_map] at hp
    obtain ⟨i, _, rfl⟩ := hp
    exact compositePixel_alpha ..
  · simp [compositeImage]

lemma compositeImage_c4_eval :
    compositeImage { defaultSettings with vizMode := "outline" } [0] [(5, 6, 7)] 1 1 1 1 =
      [{ r := 5, g := 6, b := 7, a := 255 }] := by
  have h5 := toUint8Clamp_natCast 5 (by norm_num)
  have h6 := toUint8Clamp_natCast 6 (by norm_num)
  have h7 := toUint8Clamp_natCast 7 (by norm_num)
  push_cast at h5 h6 h7
  simp [compositeImage, compositePixel, defaultSettings, List.range_succ, List.getD,
    h5, h6, h7]

/-- C4 witness: the C4 theorem at a concrete 1×1 frame, showing a concrete
member pixel opaque and the buffer fully written. -/
theorem C4_witness :
    ({ r := 5, g := 6, b := 7, a := 255 } : RGBA).a = 255 ∧
    (compositeImage { defaultSettings with vizMode := "outline" } [0] [(5, 6, 7)] 1 1 1 1).length =
      1 * 1 :=
  C4_opaque { defaultSettings with vizMode := "outline" } [0] [(5, 6, 7)] 1 1 1 1
    { r := 5, g := 6, b := 7, a := 255 }
    (by rw [compositeImage_c4_eval]; exact List.mem_singleton.mpr rfl)

lemma isEdge_iff (maskData : List ℕ) (w h x y : ℕ) (hx : x < w) (hy : y < h) :
    isEdge maskData w h x y = true ↔
      maskData.getD (y * w + x) 0 = 1 ∧
      ∃ dx dy : ℤ, dx.natAbs ≤ 1 ∧ dy.natAbs ≤ 1 ∧ ¬(dx = 0 ∧ dy = 0) ∧
        0 ≤ (x : ℤ) + dx ∧ (x : ℤ) + dx < (w : ℤ) ∧
        0 ≤ (y : ℤ) + dy ∧ (y : ℤ) + dy < (h : ℤ) ∧
        maskData.getD (((y : ℤ) + dy).toNat * w + ((x : ℤ) + dx).toNat) 0 = 0 := by
  unfold isEdge
  rw [Bool.and_eq_true, beq_iff_eq]
  constructor
  · rintro ⟨h1, h2⟩
    refine ⟨h1, ?_⟩
    simp only [List.any_eq_true, Bool.and_eq_true, beq_iff_eq, decide_eq_true_eq] at h2
    obtain ⟨dy, hdy, dx, hdx, ⟨hbx1, hbx2, hby1, hby2⟩, h0⟩ := h2
    simp only [List.mem_cons, List.not_mem_nil, or_false] at hdx hdy
    refine ⟨dx, dy, by omega, by omega, ?_, hbx1, hbx2, hby1, hby2, h0⟩
    rintro ⟨rfl, rfl⟩
    rw [add_zero, add_zero, Int.toNat_natCast, Int.toNat_natCast, h1] at h0
    omega
  · rintro ⟨h1, dx, dy, hdx1, hdy1, _, hbx1, hbx2, hby1, hby2, h0⟩
    refine ⟨h1, ?_⟩
    simp only [List.any_eq_true, Bool.and_eq_true, beq_iff_eq, decide_eq_true_eq]
    refine ⟨dy, ?_, dx, ?_, ⟨hbx1, hbx2, hby1, hby2⟩, h0⟩
    · have hc : dy = -1 ∨ dy = 0 ∨ dy = 1 := by omega
      rcases hc with hc | hc | hc <;> simp [hc]
    · have hc : dx = -1 ∨ dx = 0 ∨ dx = 1 := by omega
      rcases hc with hc | hc | hc <;> simp [hc]

lemma isEdge_all_ones (w h x y : ℕ) (hx : x < w) (hy : y < h) :
    isEdge (List.replicate (w * h) 1) w h x y = false := by
  by_contra hc
  rw [Bool.not_eq_false, isEdge_iff _ _ _ _ _ hx hy] at hc
  obtain ⟨h1, dx, dy, _, _, _, hbx1, hbx2, hby1, hby2, h0⟩ := hc
  have hx' : ((x : ℤ) + dx).toNat < w := by omega
  have hy' : ((y : ℤ) + dy).toNat < h := by omega
  have hidx : ((y : ℤ) + dy).toNat * w + ((x : ℤ) + dx).toNat < w * h := by
    calc ((y : ℤ) + dy).toNat * w + ((x : ℤ) + dx).toNat
        < (((y : ℤ) + dy).toNat + 1) * w := by
          rw [add_mul, one_mul]; omega
      _ ≤ h * w := mul_le_mul_right' (by omega) w
      _ = w * h := Nat.mul_comm h w
  rw [List.getD_eq_getElem?_getD, List.getElem?_replicate, if_pos hidx] at h0
  simp at h0

lemma drawOutlineRects_all_ones (w h cw ch : ℕ) (t : ℚ) :
    drawOutlineRects (List.replicate (w * h) 1) w h cw ch t = [] := by
  rw [List.eq_nil_iff_forall_not_mem]
  intro rect hrect
  simp only [drawOutlineRects, List.mem_flatMap, List.mem_range, List.mem_filterMap] at hrect
  obtain ⟨y, hy, x, hx, hxe⟩ := hrect
  rw [isEdge_all_ones w h x y hx hy] at hxe
  simp at hxe

/-- C5: a mask cell is marked as an edge by the outline tracer iff it
holds 1 and one of its 8 in-bounds neighbours holds 0 (out-of-bounds
neighbours never count as background); consequently on an all-ones mask no
cell is an edge and `drawOutline` paints nothing. -/
theorem C5_edge_characterization (maskData : List ℕ) (w h x y cw ch : ℕ) (t : ℚ)
    (hx : x < w) (hy : y < h) :
    (isEdge maskData w h x y = true ↔
      maskData.getD (y * w + x) 0 = 1 ∧
      ∃ dx dy : ℤ, dx.natAbs ≤ 1 ∧ dy.natAbs ≤ 1 ∧ ¬(dx = 0 ∧ dy = 0) ∧
        0 ≤ (x : ℤ) + dx ∧ (x : ℤ) + dx < (w : ℤ) ∧
        0 ≤ (y : ℤ) + dy ∧ (y : ℤ) + dy < (h : ℤ) ∧
        maskData.getD (((y : ℤ) + dy).toNat * w + ((x : ℤ) + dx).toNat) 0 = 0) ∧
    isEdge (List.replicate (w * h) 1) w h x y = false ∧
    drawOutlineRects (List.replicate (w * h) 1) w h cw ch t = [] :=
  ⟨isEdge_iff maskData w h x y hx hy, isEdge_all_ones w h x y hx hy,
   drawOutlineRects_all_ones w h cw ch t⟩

/-- C5 witness: the C5 theorem at the concrete 2×1 mask [1, 0] and cell
(0, 0). -/
theorem C5_witness :
    (isEdge [1, 0] 2 1 0 0 = true ↔
      ([1, 0] : List ℕ).getD (0 * 2 + 0) 0 = 1 ∧
      ∃ dx dy : ℤ, dx.natAbs ≤ 1 ∧ dy.natAbs ≤ 1 ∧ ¬(dx = 0 ∧ dy = 0) ∧
        0 ≤ (0 : ℤ) + dx ∧ (0 : ℤ) + dx < (2 : ℤ) ∧
        0 ≤ (0 : ℤ) + dy ∧ (0 : ℤ) + dy < (1 : ℤ) ∧
        ([1, 0] : List ℕ).getD (((0 : ℤ) + dy).toNat * 2 + ((0 : ℤ) + dx).toNat) 0 = 0) ∧
    isEdge (List.replicate (2 * 1) 1) 2 1 0 0 = false ∧
    drawOutlineRects (List.replicate (2 * 1) 1) 2 1 4 2 3 = [] :=
  C5_edge_characterization [1, 0] 2 1 0 0 4 2 3 (by norm_num) (by norm_num)

/-- C6 (counterexample): a history buffer written for a 2×3 mask is
blended, not reset, when the next mask is 3×2 — the two buffers have
different dimensions but the same length 6, and `smoothMask` compares only
lengths.  With smoothing 6, an all-ones history and an all-zeros current
mask, the call returns all ones instead of the current mask. -/
theorem C6_cex :
    (smoothMask 6 (some ((smoothMask 6 none [1, 1, 1, 1, 1, 1] 2 3).2))
        [0, 0, 0, 0, 0, 0] 3 2).1 ≠ [0, 0, 0, 0, 0, 0] := by
  norm_num [smoothMask, binarize]

/-- C6 (amended): the history is reset (and the current mask returned
unchanged) when the stored buffer's length differs from the current
mask's; a dimension change that preserves the total cell count (such as
swapped width and height) is not detected and the buffers are blended. -/
theorem C6_reset_on_length_change (smoothing : ℤ) (prev : List ℚ) (cur : List ℕ)
    (w h : ℕ) (hlen : prev.length ≠ cur.length) :
    smoothMask smoothing (some prev) cur w h = (cur, cur.map fun v => (v : ℚ)) := by
  simp [smoothMask, hlen]

/-- C6 witness: the amended C6 theorem at a concrete length-2 history and
length-3 mask. -/
theorem C6_witness :
    smoothMask 5 (some [1, 1]) [0, 0, 0] 3 1 =
      ([0, 0, 0], ([0, 0, 0] : List ℕ).map fun v => (v : ℚ)) :=
  C6_reset_on_length_change 5 [1, 1] [0, 0, 0] 3 1 (by decide)

/-- C7 (counterexample): nothing is clamped.  After
`updateSettings({fillOpacity: 2, smoothing: -5, ...})` the stored opacity
is 2 and the compositor blends with it verbatim, producing a pixel value
(0 from source 200) that no opacity in [0,1] can produce; and the mask
processor blends with the negative smoothing verbatim, storing a history
value (-1/2) that no non-negative smoothing can produce. -/
theorem C7_cex :
    (updateSettings defaultSettings
        { fillOpacity := some 2, fillColor := some "#646464",
          vizMode := some "fill", smoothing := some (-5) }).fillOpacity = 2 ∧
    (updateSettings defaultSettings
        { fillOpacity := some 2, fillColor := some "#646464",
          vizMode := some "fill", smoothing := some (-5) }).smoothing = -5 ∧
    (compositePixel
        (updateSettings defaultSettings
          { fillOpacity := some 2, fillColor := some "#646464",
            vizMode := some "fill", smoothing := some (-5) })
        true (200, 200, 200)).r = 0 ∧
    (∀ t : ℚ, 0 ≤ t → t ≤ 1 → blendChannel 200 100 t ≠ 0) ∧
    (smoothMask (-5) (some [1]) [0] 1 1).2 = [-(1/2)] ∧
    (∀ n : ℤ, 0 ≤ n → (smoothMask n (some [1]) [0] 1 1).2 ≠ [-(1/2)]) := by
  have hhex : hexToRGB "#646464" = (100, 100, 100) := by decide
  refine ⟨rfl, rfl, ?_, ?_, ?_, ?_⟩
  · have harg : ((200 : ℕ) : ℚ) * (1 - 2) + ((100 : ℕ) : ℚ) * 2 = 0 := by norm_num
    have hb : blendChannel 200 100 2 = 0 := by
      rw [blendChannel, harg]
      simp [toUint8Clamp]
    simp [compositePixel, updateSettings, defaultSettings, hhex, hb]
  · intro t ht0 ht1 hEq
    have harg : ((100 : ℚ)) ≤ ((200 : ℕ) : ℚ) * (1 - t) + ((100 : ℕ) : ℚ) * t := by
      push_cast
      nlinarith
    have := le_toUint8Clamp 100 _ (by norm_num) harg
    rw [blendChannel] at hEq
    omega
  · norm_num [smoothMask]
  · intro n hn
    rcases eq_or_lt_of_le hn with h0 | hpos
    · rw [← h0]
      norm_num [smoothMask]
    · have hne : ¬ (n = 0) := by omega
      simp only [smoothMask, hne, false_or, List.length_cons, List.length_nil, ne_eq,
        not_true_eq_false, if_false]
      norm_num
      intro hEq
      have hq : (0 : ℚ) < (n : ℚ) / 10 := by positivity
      nlinarith [hEq, hq]

/-- C7 (amended): settings updates are merged verbatim with no clamping —
the compositor uses the stored `fillOpacity` and the mask processor the
stored `smoothing` exactly as given; only the final per-channel stores
into the output pixel buffer are clamped, to [0, 255]. -/
theorem C7_no_clamping (s : Settings) (u : SettingsUpdate) (seg : Bool) (v : ℕ × ℕ × ℕ) :
    (updateSettings s u).fillOpacity = u.fillOpacity.getD s.fillOpacity ∧
    (updateSettings s u).smoothing = u.smoothing.getD s.smoothing ∧
    (compositePixel (updateSettings s u) seg v).r ≤ 255 ∧
    (compositePixel (updateSettings s u) seg v).g ≤ 255 ∧
    (compositePixel (updateSettings s u) seg v).b ≤ 255 ∧
    (compositePixel (updateSettings s u) seg v).a = 255 := by
  refine ⟨rfl, rfl, ?_, ?_, ?_, compositePixel_alpha ..⟩ <;>
  · unfold compositePixel
    split_ifs <;> exact toUint8Clamp_le _

/-! ## Temporal-smoothing convergence (C8) -/

lemma binarize_small (b : ℚ) (h : b ≤ 1/2) : binarize b = 0 := by
  rw [binarize, if_neg (not_lt.mpr h)]

lemma binarize_big (b : ℚ) (h : 1/2 < b) : binarize b = 1 := by
  rw [binarize, if_pos h]

lemma zipWith_congr_fun {α β γ : Type} (f g : α → β → γ) (h : ∀ a b, f a b = g a b)
    (l1 : List α) (l2 : List β) : List.zipWith f l1 l2 = List.zipWith g l1 l2 := by
  induction l1 generalizing l2 with
  | nil => simp
  | cons a t ih => cases l2 <;> simp [h, ih]

lemma zipWith_left_of_length_le {α β : Type} (l1 : List α) (l2 : List β)
    (h : l1.length ≤ l2.length) : List.zipWith (fun a _ => a) l1 l2 = l1 := by
  induction l1 generalizing l2 with
  | nil => simp
  | cons a t ih =>
      cases l2 with
      | nil => simp at h
      | cons b t2 =>
          simp only [List.length_cons] at h
          simp only [List.zipWith_cons_cons]
          rw [ih t2 (by omega)]

lemma zipWith_zipWith_same {α β γ δ : Type} (f : α → β → γ) (g : γ → β → δ)
    (l1 : List α) (l2 : List β) :
    List.zipWith g (List.zipWith f l1 l2) l2 = List.zipWith (fun a b => g (f a b) b) l1 l2 := by
  induction l1 generalizing l2 with
  | nil => simp
  | cons a t ih => cases l2 <;> simp [ih]

lemma zipWith_eq_right {α : Type} (k : α → ℕ → ℕ) (l1 : List α) (l2 : List ℕ)
    (hlen : l2.length ≤ l1.length) (hk : ∀ p ∈ l1, ∀ c ∈ l2, k p c = c) :
    List.zipWith k l1 l2 = l2 := by
  induction l2 generalizing l1 with
  | nil => simp
  | cons c t ih =>
      cases l1 with
      | nil => simp at hlen
      | cons p t1 =>
          simp only [List.length_cons] at hlen
          simp only [List.zipWith_cons_cons]
          rw [hk p (List.mem_cons_self p t1) c (List.mem_cons_self c t),
            ih t1 (by omega)
              (fun a ha b hb => hk a (List.mem_cons_of_mem _ ha) b (List.mem_cons_of_mem _ hb))]

lemma histN_closed_form (s : ℤ) (hs : s ≠ 0) (h0 : List ℚ) (M : List ℕ)
    (hlen : h0.length = M.length) (n : ℕ) :
    histN s h0 M n =
      List.zipWith (fun (p : ℚ) (c : ℕ) => (c : ℚ) + (p - (c : ℚ)) * ((s : ℚ) / 10) ^ n)
        h0 M := by
  induction n with
  | zero =>
      have h1 : List.zipWith (fun (p : ℚ) (c : ℕ) => (c : ℚ) + (p - c) * ((s : ℚ) / 10) ^ 0)
          h0 M = List.zipWith (fun p _ => p) h0 M := by
        apply zipWith_congr_fun
        intro a b
        ring
      rw [h1, zipWith_left_of_length_le h0 M (le_of_eq hlen)]
      rfl
  | succ n ih =>
      have hZlen : (histN s h0 M n).length = M.length := by
        rw [ih, List.length_zipWith]
        omega
      have hcond : ¬ (s = 0 ∨ (histN s h0 M n).length ≠ M.length) := by
        push_neg
        exact ⟨hs, hZlen⟩
      show (smoothMask s (some (histN s h0 M n)) M 0 0).2 = _
      simp only [smoothMask, if_neg hcond]
      rw [ih, zipWith_zipWith_same]
      apply zipWith_congr_fun
      intro a b
      ring

/-- C8 (amended): for every smoothing setting 0–9 (so the blend factor
smoothing/10 is below 1), every binary constant mask `M` and every initial
history buffer of matching size, there is a frame count `N` after which the
temporal-smoothing output equals `M` on every frame.  (At smoothing 10 the
factor is 1 and the history never moves; see the counterexample.) -/
theorem C8_convergence (s : ℤ) (hs0 : 0 ≤ s) (hs9 : s ≤ 9) (M : List ℕ)
    (hM : ∀ v ∈ M, v ≤ 1) (h0 : List ℚ) (hlen : h0.length = M.length) :
    ∃ N, ∀ n, N ≤ n →
      (smoothMask s (some (histN s h0 M n)) M 0 0).1 = M := by
  rcases eq_or_lt_of_le hs0 with hz | hpos
  · refine ⟨0, fun n _ => ?_⟩
    rw [← hz]
    simp [smoothMask]
  · have hs' : s ≠ 0 := by omega
    have hf0 : (0 : ℚ) ≤ (s : ℚ) / 10 := by
      apply div_nonneg _ (by norm_num)
      exact_mod_cast hs0
    have hf1 : (s : ℚ) / 10 < 1 := by
      rw [div_lt_one (by norm_num)]
      exact_mod_cast (by omega : s < 10)
    set B : ℚ := 1 + (List.map (fun q => |q|) h0).sum with hBdef
    have hBpos : 0 < B := by
      have h1 : 0 ≤ (List.map (fun q => |q|) h0).sum := by
        apply List.sum_nonneg
        intro x hx
        obtain ⟨q, _, rfl⟩ := List.mem_map.mp hx
        exact abs_nonneg q
      rw [hBdef]
      linarith
    have hbound : ∀ p ∈ h0, |p| + 1 ≤ B := by
      intro p hp
      have h1 : |p| ≤ (List.map (fun q => |q|) h0).sum := by
        apply List.single_le_sum
        · intro x hx
          obtain ⟨q, _, rfl⟩ := List.mem_map.mp hx
          exact abs_nonneg q
        · exact List.mem_map_of_mem _ hp
      rw [hBdef]
      linarith
    obtain ⟨N, hN⟩ :=
      exists_pow_lt_of_lt_one (show (0 : ℚ) < 1 / (2 * B) by positivity) hf1
    refine ⟨N, fun n hn => ?_⟩
    have hZlen : (histN s h0 M n).length = M.length := by
      rw [histN_closed_form s hs' h0 M hlen n, List.length_zipWith]
      omega
    have hcond : ¬ (s = 0 ∨ (histN s h0 M n).length ≠ M.length) := by
      push_neg
      exact ⟨hs', hZlen⟩
    simp only [smoothMask, if_neg hcond]
    have hstep :
        List.zipWith (fun (p : ℚ) (c : ℕ) => p * ((s : ℚ) / 10) + (c : ℚ) * (1 - (s : ℚ) / 10))
            (histN s h0 M n) M =
          List.zipWith
            (fun (p : ℚ) (c : ℕ) => (c : ℚ) + (p - (c : ℚ)) * ((s : ℚ) / 10) ^ (n + 1))
            h0 M := by
      rw [histN_closed_form s hs' h0 M hlen n, zipWith_zipWith_same]
      apply zipWith_congr_fun
      intro a b
      ring
    rw [hstep, List.map_zipWith]
    apply zipWith_eq_right _ _ _ (le_of_eq hlen.symm)
    intro p hp c hc
    have hcb : c ≤ 1 := hM c hc
    have hpB := hbound p hp
    have hfn : (0 : ℚ) ≤ ((s : ℚ) / 10) ^ (n + 1) := pow_nonneg hf0 _
    have hsmall : B * ((s : ℚ) / 10) ^ (n + 1) < 1/2 := by
      have hmono : ((s : ℚ) / 10) ^ (n + 1) ≤ ((s : ℚ) / 10) ^ N :=
        pow_le_pow_of_le_one hf0 (le_of_lt hf1) (by omega)
      have h1 : B * ((s : ℚ) / 10) ^ (n + 1) ≤ B * ((s : ℚ) / 10) ^ N :=
        mul_le_mul_of_nonneg_left hmono (le_of_lt hBpos)
      have h2 : B * ((s : ℚ) / 10) ^ N < B * (1 / (2 * B)) :=
        mul_lt_mul_of_pos_left hN hBpos
      have h3 : B * (1 / (2 * B)) = 1/2 := by
        field_simp
        ring
      linarith
    interval_cases c
    · apply binarize_small
      push_cast
      have hple : p ≤ B := by
        have := le_abs_self p
        linarith
      have h1 : p * ((s : ℚ) / 10) ^ (n + 1) ≤ B * ((s : ℚ) / 10) ^ (n + 1) :=
        mul_le_mul_of_nonneg_right hple hfn
      have harg : (0 : ℚ) + (p - 0) * ((s : ℚ) / 10) ^ (n + 1) =
          p * ((s : ℚ) / 10) ^ (n + 1) := by ring
      rw [harg]
      linarith
    · apply binarize_big
      push_cast
      have hple : 1 - p ≤ B := by
        have := neg_le_abs p
        linarith
      have h1 : (1 - p) * ((s : ℚ) / 10) ^ (n + 1) ≤ B * ((s : ℚ) / 10) ^ (n + 1) :=
        mul_le_mul_of_nonneg_right hple hfn
      have harg : (1 : ℚ) + (p - 1) * ((s : ℚ) / 10) ^ (n + 1) =
          1 - (1 - p) * ((s : ℚ) / 10) ^ (n + 1) := by ring
      rw [harg]
      linarith

/-- C8 witness: the amended C8 theorem at smoothing 2, constant mask [1]
and initial history [0]. -/
theorem C8_witness :
    ∃ N, ∀ n, N ≤ n → (smoothMask 2 (some (histN 2 [0] [1] n)) [1] 0 0).1 = [1] :=
  C8_convergence 2 (by norm_num) (by norm_num) [1] (by simp) [0] rfl

lemma histN_frozen (n : ℕ) : histN 10 [0] [1] n = [0] := by
  induction n with
  | zero => rfl
  | succ n ih =>
      show (smoothMask 10 (some (histN 10 [0] [1] n)) [1] 0 0).2 = [0]
      rw [ih]
      norm_num [smoothMask]

/-- C8 (counterexample): at smoothing 10 (the top of the 0–10 scale) the
blend factor is 10/10 = 1, so the history never changes: with initial
history [0] and constant mask [1] the smoothed output is [0] on every
frame and never equals the mask. -/
theorem C8_cex :
    ¬ ∃ N, ∀ n, N ≤ n →
        (smoothMask 10 (some (histN 10 [0] [1] n)) [1] 0 0).1 = [1] := by
  rintro ⟨N, hN⟩
  have h := hN N le_rfl
  rw [histN_frozen] at h
  norm_num [smoothMask, binarize] at h
